import Mathlib

/-!
Shallow embedding of the reward/streak engine and the task routes of the
task-management backend (the User model, the Task model in both of its
source variants, and the task router).  Timestamps are integer
milliseconds since the epoch; a calendar day is a fixed 86400000 ms
window, so day boundaries fall at integer multiples of dayMs (a
fixed-offset clock, which is how the JavaScript Date arithmetic in the
source behaves for a fixed time zone).
-/

namespace TaskBack

/-- Milliseconds per day, 1000*60*60*24 in the source. -/
def dayMs : Int := 86400000

/-- Calendar day index of a timestamp (floor division by dayMs). -/
def calendarDay (t : Int) : Int := t.fdiv dayMs

/-- The instant 23:59:59.999 of the calendar day of t; this is what
dueDate.setHours(23, 59, 59, 999) produces in the Task model. -/
def endOfDay (t : Int) : Int := t.fdiv dayMs * dayMs + (dayMs - 1)

/-- One entry of a user reward log (the rewards array of the user schema):
fields type ("points" or "gift"), value, description, date. -/
structure Reward where
  type : String
  value : Int
  description : String
  date : Int
deriving Repr, DecidableEq

/-- Reward and streak state of a user (user schema).  Schema defaults are
rewardPoints 0, currentStreak 0, lastTaskCompletion null, rewards []. -/
structure User where
  rewardPoints : Int
  currentStreak : Nat
  lastTaskCompletion : Option Int
  rewards : List Reward
deriving Repr, DecidableEq

/-- A user as created by the schema defaults. -/
def initialUser : User :=
  { rewardPoints := 0, currentStreak := 0, lastTaskCompletion := none, rewards := [] }

/-- User method addRewardPoints(points, reason): increment rewardPoints by
points and push a reward-log entry of type "points" with value points. -/
def addRewardPoints (u : User) (points : Int) (reason : String) (now : Int) : User :=
  { u with
    rewardPoints := u.rewardPoints + points,
    rewards := u.rewards ++ [⟨"points", points, reason, now⟩] }

/-- User method updateStreak(taskCompletionDate): if there is no previous
completion, start the streak at 1; otherwise compute
daysDiff = floor((now - lastTaskCompletion) / dayMs) and increment the
streak when daysDiff = 1, reset it to 1 when daysDiff > 1, and leave it
unchanged otherwise.  Then set lastTaskCompletion, and if the resulting
currentStreak is divisible by 10 award currentStreak * 100 bonus points
through addRewardPoints. -/
def updateStreak (u : User) (taskCompletionDate : Int) (now : Int) : User :=
  let u1 :=
    match u.lastTaskCompletion with
    | none => { u with currentStreak := 1 }
    | some lastCompletion =>
      let daysDiff : Int := (now - lastCompletion).fdiv dayMs
      if daysDiff = 1 then { u with currentStreak := u.currentStreak + 1 }
      else if daysDiff > 1 then { u with currentStreak := 1 }
      else u
  let u2 := { u1 with lastTaskCompletion := some taskCompletionDate }
  if u2.currentStreak % 10 = 0 then
    addRewardPoints u2 ((u2.currentStreak : Int) * 100)
      ("Streak reward for " ++ toString u2.currentStreak ++ " consecutive tasks") now
  else
    u2

/-- Task status enum of the task schema. -/
inductive TaskStatus
  | pending
  | in_progress
  | completed
  | overdue
deriving Repr, DecidableEq

/-- Task priority enum of the task schema. -/
inductive Priority
  | low
  | medium
  | high
  | urgent
deriving Repr, DecidableEq

/-- Extension-request resolution status enum. -/
inductive ExtStatus
  | pending
  | approved
  | rejected
deriving Repr, DecidableEq

/-- The extensionRequest sub-record of the task schema. -/
structure ExtensionRequest where
  requested : Bool
  status : ExtStatus
  requestedBy : Option Nat
  requestedAt : Option Int
  reason : Option String
  newDueDate : Option Int
  approvedBy : Option Nat
  approvedAt : Option Int
deriving Repr, DecidableEq

/-- Extension-request sub-record as created by the schema defaults. -/
def noExtensionRequest : ExtensionRequest :=
  { requested := false, status := ExtStatus.pending, requestedBy := none,
    requestedAt := none, reason := none, newDueDate := none,
    approvedBy := none, approvedAt := none }

/-- The reward-relevant fields of a task (task schema).  User references
are modelled as Nat identifiers. -/
structure Task where
  status : TaskStatus
  priority : Priority
  dueDate : Int
  completionDate : Option Int
  isCompletedOnTime : Bool
  rewardPoints : Int
  assignedTo : Nat
  createdBy : Nat
  extensionRequest : ExtensionRequest
deriving Repr, DecidableEq

/-- Task method completeTask of the model file in src/models: mark the task
completed at now, compare now against the end of day of dueDate, award a
flat 50 task points when on time and 0 when late, and, when on time and
the assigned user resolves, run updateStreak and then credit the task
points to the user; when the user does not resolve, only the error log
fires and no user is touched. -/
def completeTask (task : Task) (user : Option User) (now : Int) : Task × Option User :=
  let onTime : Bool := decide (now ≤ endOfDay task.dueDate)
  let task1 : Task :=
    { task with
      status := TaskStatus.completed,
      completionDate := some now,
      isCompletedOnTime := onTime,
      rewardPoints := if onTime then 50 else 0 }
  match user with
  | some u =>
    if onTime then
      let u1 := updateStreak u now now
      let u2 := addRewardPoints u1 task1.rewardPoints
        ("On-time task completion: task") now
      (task1, some u2)
    else
      (task1, some u)
  | none => (task1, none)

/-- Priority bonus of the tiered completeTask variant: urgent +50,
high +30, medium +20, low +10. -/
def priorityBonus : Priority → Int
  | Priority.urgent => 50
  | Priority.high => 30
  | Priority.medium => 20
  | Priority.low => 10

/-- Task method completeTask of the other source variant of the Task model:
on-time compares now against the raw dueDate, an on-time completion earns
50 plus the priority bonus, and a late completion leaves the stored
rewardPoints field untouched (its else branch only logs). -/
def completeTask_tiered (task : Task) (user : Option User) (now : Int) : Task × Option User :=
  let onTime : Bool := decide (now ≤ task.dueDate)
  let task1 : Task :=
    { task with
      status := TaskStatus.completed,
      completionDate := some now,
      isCompletedOnTime := onTime,
      rewardPoints := if onTime then 50 + priorityBonus task.priority else task.rewardPoints }
  match user with
  | some u =>
    if onTime then
      let u1 := updateStreak u now now
      let u2 := addRewardPoints u1 task1.rewardPoints
        ("Task completion reward: task") now
      (task1, some u2)
    else
      (task1, some u)
  | none => (task1, none)

/-- Outcome of a route handler: an updated task or an HTTP client error. -/
inductive ExtResult
  | ok (task : Task)
  | clientError (code : Nat) (message : String)
deriving Repr, DecidableEq

/-- The admin PATCH extension-request route of the task router, from the
point where the task has been loaded: reject with 400 when no extension
was requested, when the status is neither approved nor rejected, when
approving without a new due date, or when the proposed date is not after
the current dueDate; on approval set dueDate to the proposed date and
mark the request approved; on rejection mark it rejected and leave
dueDate alone. -/
def handleExtensionRequest (task : Task) (adminId : Nat) (now : Int)
    (status : String) (newDueDate : Option Int) : ExtResult :=
  if task.extensionRequest.requested = false then
    ExtResult.clientError 400 "No extension request found for this task"
  else if status ≠ "approved" ∧ status ≠ "rejected" then
    ExtResult.clientError 400 "Valid status (approved/rejected) is required"
  else if status = "approved" ∧ newDueDate = none then
    ExtResult.clientError 400 "New due date is required when approving extension"
  else if status = "approved" then
    match newDueDate with
    | none => ExtResult.clientError 400 "New due date is required when approving extension"
    | some proposedDate =>
      if proposedDate ≤ task.dueDate then
        ExtResult.clientError 400 "New due date must be after current due date"
      else
        ExtResult.ok
          { task with
            dueDate := proposedDate,
            extensionRequest :=
              { task.extensionRequest with
                status := ExtStatus.approved,
                approvedBy := some adminId,
                approvedAt := some now,
                newDueDate := some proposedDate } }
  else
    ExtResult.ok
      { task with
        extensionRequest :=
          { task.extensionRequest with
            status := ExtStatus.rejected,
            approvedBy := some adminId,
            approvedAt := some now } }

/-- Recipients of the notifications created by the add-comment route: the
task creator when distinct from the commenter, the assigned user when
distinct from the commenter, and every admin user who is none of the
commenter, the creator and the assignee. -/
def commentNotificationRecipients (createdBy assignedTo commenter : Nat)
    (adminIds : List Nat) : List Nat :=
  (if createdBy ≠ commenter then [createdBy] else []) ++
  (if assignedTo ≠ commenter then [assignedTo] else []) ++
  adminIds.filter (fun a => decide (a ≠ commenter ∧ a ≠ createdBy ∧ a ≠ assignedTo))

/-- Sum of the values of the reward-log entries of type "points". -/
def sumPoints (rs : List Reward) : Int :=
  (rs.map (fun r => if r.type == "points" then r.value else 0)).sum

/-- The reward-log invariant of the user schema: rewardPoints equals the
sum of the values of all reward entries of type "points". -/
def pointsInvariant (u : User) : Prop :=
  u.rewardPoints = sumPoints u.rewards

/-- User states reachable through the reward/streak engine: the schema
default state, and any state produced from a reachable one by a task
completion that found the user. -/
inductive ReachableUser : User → Prop
  | init : ReachableUser initialUser
  | step (u : User) (task : Task) (now : Int) (u2 : User) :
      ReachableUser u → (completeTask task (some u) now).2 = some u2 →
      ReachableUser u2

/-- The streak value updateStreak leaves in place, read off its branch
structure. -/
def streakAfter (u : User) (now : Int) : Nat :=
  match u.lastTaskCompletion with
  | none => 1
  | some lastCompletion =>
    let daysDiff : Int := (now - lastCompletion).fdiv dayMs
    if daysDiff = 1 then u.currentStreak + 1
    else if daysDiff > 1 then 1
    else u.currentStreak

theorem updateStreak_spec (u : User) (tcd now : Int) :
    (updateStreak u tcd now).currentStreak = streakAfter u now ∧
    (updateStreak u tcd now).lastTaskCompletion = some tcd ∧
    (updateStreak u tcd now).rewards.length =
      (if streakAfter u now % 10 = 0 then u.rewards.length + 1 else u.rewards.length) ∧
    (updateStreak u tcd now).rewardPoints =
      u.rewardPoints +
        (if streakAfter u now % 10 = 0 then (streakAfter u now : Int) * 100 else 0) := by
  rcases hu : u.lastTaskCompletion with _ | lastCompletion <;>
    simp only [updateStreak, streakAfter, addRewardPoints, hu] <;>
    split_ifs <;>
    simp_all

/-- C1: the streak bonus in updateStreak fires exactly when the updated
currentStreak is divisible by 10: a reward-log entry is appended (the log
grows by one) if and only if the updated streak is a multiple of 10, and
rewardPoints grows by currentStreak times 100 in that case and is
unchanged otherwise.  In particular the bonus also fires on a same-day
repeat completion that leaves the streak at a multiple of 10, and at
streak 0, where a zero-value entry is logged. -/
theorem c1_streak_bonus_iff (u : User) (tcd now : Int) :
    ((updateStreak u tcd now).rewards.length = u.rewards.length + 1 ↔
      (updateStreak u tcd now).currentStreak % 10 = 0) ∧
    (updateStreak u tcd now).rewardPoints =
      u.rewardPoints +
        (if (updateStreak u tcd now).currentStreak % 10 = 0
          then ((updateStreak u tcd now).currentStreak : Int) * 100 else 0) := by
  obtain ⟨h1, _, h3, h4⟩ := updateStreak_spec u tcd now
  rw [h1, h3, h4]
  constructor
  · split_ifs with h <;> simp [h]
  · rfl

/-- User state with a streak of 10 and a prior completion on the same
calendar day as the new one. -/
def c1User : User :=
  { rewardPoints := 0, currentStreak := 10, lastTaskCompletion := some 0, rewards := [] }

/-- C1 is false as stated: for a user at streak 10 whose last completion
was the same day (whole-day difference 0), updateStreak leaves the streak
unchanged, yet it appends a bonus reward-log entry and adds 1000 points,
although the claim says no bonus fires on a same-day repeat that leaves
the streak unchanged. -/
theorem c1_counterexample :
    ((1000 : Int) - 0).fdiv dayMs = 0 ∧
    (updateStreak c1User 1000 1000).currentStreak = c1User.currentStreak ∧
    (updateStreak c1User 1000 1000).rewards.length = c1User.rewards.length + 1 ∧
    (updateStreak c1User 1000 1000).rewardPoints = c1User.rewardPoints + 1000 := by
  decide

/-- C2 (amended): for a user with a prior completion, updateStreak uses
daysDiff = floor((now - lastTaskCompletion) / dayMs): it increments the
streak when daysDiff = 1, resets it to 1 when daysDiff > 1, leaves it
unchanged when daysDiff < 1 (in particular on a same-day repeat), and
sets lastTaskCompletion to the completion time in every case. -/
theorem c2_streak_update (u : User) (lastCompletion tcd now : Int)
    (h : u.lastTaskCompletion = some lastCompletion) :
    ((now - lastCompletion).fdiv dayMs = 1 →
      (updateStreak u tcd now).currentStreak = u.currentStreak + 1) ∧
    (1 < (now - lastCompletion).fdiv dayMs →
      (updateStreak u tcd now).currentStreak = 1) ∧
    ((now - lastCompletion).fdiv dayMs < 1 →
      (updateStreak u tcd now).currentStreak = u.currentStreak) ∧
    (updateStreak u tcd now).lastTaskCompletion = some tcd := by
  obtain ⟨h1, h2, _, _⟩ := updateStreak_spec u tcd now
  rw [h1]
  unfold streakAfter
  rw [h]
  refine ⟨?_, ?_, ?_, h2⟩ <;> intro hd <;> simp only [] <;> split_ifs <;> omega

/-- User state used to exercise the consecutive-day increment branch. -/
def c2wUser : User :=
  { rewardPoints := 0, currentStreak := 3, lastTaskCompletion := some 0, rewards := [] }

theorem c2_streak_update_witness :
    c2wUser.lastTaskCompletion = some 0 ∧
    ((((86400000 : Int) - 0).fdiv dayMs = 1 →
      (updateStreak c2wUser 86400000 86400000).currentStreak = c2wUser.currentStreak + 1) ∧
    (1 < ((86400000 : Int) - 0).fdiv dayMs →
      (updateStreak c2wUser 86400000 86400000).currentStreak = 1) ∧
    (((86400000 : Int) - 0).fdiv dayMs < 1 →
      (updateStreak c2wUser 86400000 86400000).currentStreak = c2wUser.currentStreak) ∧
    (updateStreak c2wUser 86400000 86400000).lastTaskCompletion = some 86400000) :=
  ⟨rfl, c2_streak_update c2wUser 0 86400000 86400000 rfl⟩

/-- User state whose last completion was at 23:00 of calendar day 0. -/
def c2User : User :=
  { rewardPoints := 0, currentStreak := 5, lastTaskCompletion := some 82800000, rewards := [] }

/-- C2 is false as stated in its calendar-day reading: a completion at
01:00 of the next calendar day, two hours after a completion at 23:00,
falls on the consecutive calendar day, yet the whole-day difference the
code computes is 0, so the streak stays at 5 instead of incrementing. -/
theorem c2_counterexample :
    calendarDay 90000000 = calendarDay 82800000 + 1 ∧
    (updateStreak c2User 90000000 90000000).currentStreak = c2User.currentStreak ∧
    ¬ (updateStreak c2User 90000000 90000000).currentStreak = c2User.currentStreak + 1 := by
  decide

/-- A pending high-priority task due at timestamp 0. -/
def sampleTask : Task :=
  { status := TaskStatus.pending, priority := Priority.high, dueDate := 0,
    completionDate := none, isCompletedOnTime := false, rewardPoints := 0,
    assignedTo := 1, createdBy := 2, extensionRequest := noExtensionRequest }

/-- C3: a completion at or before the end of day (23:59:59.999) of the
due date is marked on time and earns strictly positive task reward
points. -/
theorem c3_on_time_reward (task : Task) (user : Option User) (now : Int)
    (h : now ≤ endOfDay task.dueDate) :
    (completeTask task user now).1.isCompletedOnTime = true ∧
    0 < (completeTask task user now).1.rewardPoints := by
  cases user <;> simp [completeTask, h]

theorem c3_on_time_reward_witness :
    (0 : Int) ≤ endOfDay sampleTask.dueDate ∧
    ((completeTask sampleTask none 0).1.isCompletedOnTime = true ∧
      0 < (completeTask sampleTask none 0).1.rewardPoints) :=
  ⟨by decide, c3_on_time_reward sampleTask none 0 (by decide)⟩

/-- C4: an on-time completion earns 50 plus the priority bonus under the
tiered variant and a flat 50 under the variant in the models directory;
in particular a high-priority on-time completion earns 80 under the
tiered variant and 50 under the flat one. -/
theorem c4_reward_amounts (task : Task) (user : Option User) (now : Int) :
    ((completeTask_tiered task user now).1.isCompletedOnTime = true →
      (completeTask_tiered task user now).1.rewardPoints = 50 + priorityBonus task.priority) ∧
    ((completeTask task user now).1.isCompletedOnTime = true →
      (completeTask task user now).1.rewardPoints = 50) ∧
    (task.priority = Priority.high →
      (completeTask_tiered task user now).1.isCompletedOnTime = true →
      (completeTask_tiered task user now).1.rewardPoints = 80) ∧
    (task.priority = Priority.high →
      (completeTask task user now).1.isCompletedOnTime = true →
      (completeTask task user now).1.rewardPoints = 50) := by
  refine ⟨?_, ?_, ?_, ?_⟩ <;>
    cases user <;>
    simp only [completeTask, completeTask_tiered] <;>
    split_ifs with h <;>
    simp_all [priorityBonus]

theorem c4_reward_amounts_witness :
    (completeTask_tiered sampleTask none 0).1.rewardPoints = 80 ∧
    (completeTask sampleTask none 0).1.rewardPoints = 50 :=
  ⟨(c4_reward_amounts sampleTask none 0).2.2.1 rfl (by decide),
   (c4_reward_amounts sampleTask none 0).2.1 (by decide)⟩

/-- C5: a completion after the end of day of the due date is marked not
on time, earns 0 task reward points, and leaves the assigned user
completely unchanged (streak, points, last completion and reward log). -/
theorem c5_late_completion (task : Task) (u : User) (now : Int)
    (h : endOfDay task.dueDate < now) :
    (completeTask task (some u) now).1.isCompletedOnTime = false ∧
    (completeTask task (some u) now).1.rewardPoints = 0 ∧
    (completeTask task (some u) now).2 = some u := by
  have hn : ¬ now ≤ endOfDay task.dueDate := not_le.mpr h
  simp [completeTask, hn]

theorem c5_late_completion_witness :
    endOfDay sampleTask.dueDate < (86400000 : Int) ∧
    ((completeTask sampleTask (some initialUser) 86400000).1.isCompletedOnTime = false ∧
      (completeTask sampleTask (some initialUser) 86400000).1.rewardPoints = 0 ∧
      (completeTask sampleTask (some initialUser) 86400000).2 = some initialUser) :=
  ⟨by decide, c5_late_completion sampleTask initialUser 86400000 (by decide)⟩

/-- A task already completed on time, due on calendar day 1, together
with the assignee state as it is right after that first completion. -/
def c6Task : Task :=
  { status := TaskStatus.completed, priority := Priority.medium, dueDate := 86400000,
    completionDate := some 0, isCompletedOnTime := true, rewardPoints := 50,
    assignedTo := 1, createdBy := 2, extensionRequest := noExtensionRequest }

def c6User : User :=
  { rewardPoints := 50, currentStreak := 1, lastTaskCompletion := some 0,
    rewards := [⟨"points", 50, "On-time task completion: task", 0⟩] }

/-- C6 is false as stated: invoking completion again on a task whose
status is already completed recomputes the reward and credits the
assignee again, so the user rewardPoints after the second invocation is
100, not the 50 it was after the first. -/
theorem c6_counterexample :
    c6Task.status = TaskStatus.completed ∧
    (completeTask c6Task (some c6User) 1000).2.map User.rewardPoints =
      some (c6User.rewardPoints + 50) ∧
    ¬ (completeTask c6Task (some c6User) 1000).2.map User.rewardPoints =
      some c6User.rewardPoints := by
  decide

/-- C6 (amended): there is no idempotence guard: re-invoking completion
on an already-completed task, when the new time is still on time, credits
the assignee at least 50 further points and appends at least one further
reward-log entry (a double award). -/
theorem c6_recompletion_reawards (task : Task) (u : User) (now : Int)
    (_hs : task.status = TaskStatus.completed) (h : now ≤ endOfDay task.dueDate) :
    ∃ u2, (completeTask task (some u) now).2 = some u2 ∧
      u.rewardPoints + 50 ≤ u2.rewardPoints ∧
      u.rewards.length < u2.rewards.length := by
  obtain ⟨_, _, h3, h4⟩ := updateStreak_spec u now now
  refine ⟨addRewardPoints (updateStreak u now now) 50
    "On-time task completion: task" now, ?_, ?_, ?_⟩
  · simp [completeTask, h]
  · simp only [addRewardPoints, h4]
    split_ifs <;> omega
  · simp only [addRewardPoints, List.length_append, List.length_singleton, h3]
    split_ifs <;> omega

theorem c6_recompletion_reawards_witness :
    c6Task.status = TaskStatus.completed ∧
    (1000 : Int) ≤ endOfDay c6Task.dueDate ∧
    (∃ u2, (completeTask c6Task (some c6User) 1000).2 = some u2 ∧
      c6User.rewardPoints + 50 ≤ u2.rewardPoints ∧
      c6User.rewards.length < u2.rewards.length) :=
  ⟨rfl, by decide, c6_recompletion_reawards c6Task c6User 1000 rfl (by decide)⟩

/-- C7 is false as stated: when the assigned user does not resolve and
the completion is on time, the task is still marked completed and no
user is touched, but the task keeps the computed 50 reward points
instead of the zero points the claim asserts. -/
theorem c7_counterexample :
    (completeTask sampleTask none 0).1.status = TaskStatus.completed ∧
    (completeTask sampleTask none 0).1.rewardPoints = 50 ∧
    ¬ (completeTask sampleTask none 0).1.rewardPoints = 0 ∧
    (completeTask sampleTask none 0).2 = none := by
  decide

/-- C7 (amended): when the assigned user does not resolve, completion
does not fail: the task is still marked completed, its reward points are
computed from the on-time comparison exactly as usual (so 0 only when
late), and no user record is produced or mutated. -/
theorem c7_missing_user (task : Task) (now : Int) :
    (completeTask task none now).1.status = TaskStatus.completed ∧
    (completeTask task none now).1.rewardPoints =
      (if now ≤ endOfDay task.dueDate then 50 else 0) ∧
    (completeTask task none now).2 = none := by
  simp only [completeTask]
  split_ifs <;> simp_all

theorem pointsInvariant_addRewardPoints (u : User) (p : Int) (r : String) (n : Int)
    (h : pointsInvariant u) : pointsInvariant (addRewardPoints u p r n) := by
  unfold pointsInvariant sumPoints at h ⊢
  unfold addRewardPoints
  simp only [List.map_append, List.sum_append, List.map_cons, List.map_nil,
    List.sum_cons, List.sum_nil, beq_self_eq_true, if_pos]
  omega

theorem pointsInvariant_updateStreak (u : User) (tcd now : Int)
    (h : pointsInvariant u) : pointsInvariant (updateStreak u tcd now) := by
  unfold updateStreak
  rcases hu : u.lastTaskCompletion with _ | lastCompletion <;>
    simp only [hu] <;>
    split_ifs <;>
    first
      | exact h
      | exact pointsInvariant_addRewardPoints _ _ _ _ h

theorem pointsInvariant_completeTask (task : Task) (u u2 : User) (now : Int)
    (h : pointsInvariant u) (hc : (completeTask task (some u) now).2 = some u2) :
    pointsInvariant u2 := by
  by_cases ht : now ≤ endOfDay task.dueDate
  · simp [completeTask, ht] at hc
    rw [← hc]
    exact pointsInvariant_addRewardPoints _ _ _ _ (pointsInvariant_updateStreak _ _ _ h)
  · simp [completeTask, ht] at hc
    rw [← hc]
    exact h

theorem updateStreak_rewardPoints_mono (u : User) (tcd now : Int) :
    u.rewardPoints ≤ (updateStreak u tcd now).rewardPoints := by
  obtain ⟨_, _, _, h4⟩ := updateStreak_spec u tcd now
  rw [h4]
  split_ifs <;> omega

/-- C8: the reward-log invariant holds: it holds of the schema default
state, it is preserved by addRewardPoints and by updateStreak, hence it
holds of every user state reachable through the completion engine; and
neither addRewardPoints with a non-negative amount nor updateStreak nor a
completion ever decrements rewardPoints. -/
theorem c8_points_invariant :
    pointsInvariant initialUser ∧
    (∀ u points reason now, pointsInvariant u →
      pointsInvariant (addRewardPoints u points reason now)) ∧
    (∀ u tcd now, pointsInvariant u → pointsInvariant (updateStreak u tcd now)) ∧
    (∀ u, ReachableUser u → pointsInvariant u) ∧
    (∀ u points reason now, 0 ≤ points →
      u.rewardPoints ≤ (addRewardPoints u points reason now).rewardPoints) ∧
    (∀ u tcd now, u.rewardPoints ≤ (updateStreak u tcd now).rewardPoints) ∧
    (∀ u task now u2, (completeTask task (some u) now).2 = some u2 →
      u.rewardPoints ≤ u2.rewardPoints) := by
  refine ⟨rfl, pointsInvariant_addRewardPoints, pointsInvariant_updateStreak, ?_, ?_, ?_, ?_⟩
  · intro u h
    induction h with
    | init => rfl
    | step u task now u2 _ hc ih => exact pointsInvariant_completeTask task u u2 now ih hc
  · intro u points reason now hp
    unfold addRewardPoints
    simp only []
    omega
  · exact updateStreak_rewardPoints_mono
  · intro u task now u2 hc
    by_cases ht : now ≤ endOfDay task.dueDate
    · simp [completeTask, ht] at hc
      rw [← hc]
      unfold addRewardPoints
      simp only []
      have := updateStreak_rewardPoints_mono u now now
      omega
    · simp [completeTask, ht] at hc
      rw [← hc]

theorem c8_points_invariant_witness :
    pointsInvariant (addRewardPoints initialUser 50 "On-time task completion: task" 0) :=
  c8_points_invariant.2.1 initialUser 50 "On-time task completion: task" 0 rfl

/-- C9: when an extension request is open, approving it with a proposed
date strictly after the current dueDate replaces the dueDate by the
proposed date and marks the request approved; approving with a date not
strictly after the current dueDate is answered with a 400 client error;
rejecting leaves the dueDate unchanged and marks the request rejected. -/
theorem c9_extension_resolution (task : Task) (adminId : Nat) (now proposedDate : Int)
    (hreq : task.extensionRequest.requested = true) :
    (task.dueDate < proposedDate →
      ∃ t2, handleExtensionRequest task adminId now "approved" (some proposedDate) =
          ExtResult.ok t2 ∧
        t2.dueDate = proposedDate ∧
        t2.extensionRequest.status = ExtStatus.approved) ∧
    (proposedDate ≤ task.dueDate →
      handleExtensionRequest task adminId now "approved" (some proposedDate) =
        ExtResult.clientError 400 "New due date must be after current due date") ∧
    (∀ nd, ∃ t2, handleExtensionRequest task adminId now "rejected" nd =
        ExtResult.ok t2 ∧
      t2.dueDate = task.dueDate ∧
      t2.extensionRequest.status = ExtStatus.rejected) := by
  refine ⟨?_, ?_, ?_⟩
  · intro hlt
    have hn : ¬ proposedDate ≤ task.dueDate := not_le.mpr hlt
    refine ⟨{ task with
        dueDate := proposedDate,
        extensionRequest :=
          { requested := true, status := ExtStatus.approved,
            requestedBy := task.extensionRequest.requestedBy,
            requestedAt := task.extensionRequest.requestedAt,
            reason := task.extensionRequest.reason,
            newDueDate := some proposedDate,
            approvedBy := some adminId, approvedAt := some now } }, ?_, rfl, rfl⟩
    simp [handleExtensionRequest, hreq, hn]
  · intro hle
    simp [handleExtensionRequest, hreq, hle]
  · intro nd
    refine ⟨{ task with
        extensionRequest :=
          { requested := true, status := ExtStatus.rejected,
            requestedBy := task.extensionRequest.requestedBy,
            requestedAt := task.extensionRequest.requestedAt,
            reason := task.extensionRequest.reason,
            newDueDate := task.extensionRequest.newDueDate,
            approvedBy := some adminId, approvedAt := some now } }, ?_, rfl, rfl⟩
    simp [handleExtensionRequest, hreq]

/-- A task with an open extension request. -/
def c9Task : Task :=
  { status := TaskStatus.in_progress, priority := Priority.low, dueDate := 0,
    completionDate := none, isCompletedOnTime := false, rewardPoints := 0,
    assignedTo := 1, createdBy := 2,
    extensionRequest :=
      { requested := true, status := ExtStatus.pending, requestedBy := some 1,
        requestedAt := some 0, reason := some "busy", newDueDate := some 86400000,
        approvedBy := none, approvedAt := none } }

theorem c9_extension_resolution_witness :
    c9Task.extensionRequest.requested = true ∧
    ((c9Task.dueDate < (86400000 : Int) →
      ∃ t2, handleExtensionRequest c9Task 7 5 "approved" (some 86400000) =
          ExtResult.ok t2 ∧
        t2.dueDate = 86400000 ∧
        t2.extensionRequest.status = ExtStatus.approved) ∧
    ((86400000 : Int) ≤ c9Task.dueDate →
      handleExtensionRequest c9Task 7 5 "approved" (some 86400000) =
        ExtResult.clientError 400 "New due date must be after current due date") ∧
    (∀ nd, ∃ t2, handleExtensionRequest c9Task 7 5 "rejected" nd =
        ExtResult.ok t2 ∧
      t2.dueDate = c9Task.dueDate ∧
      t2.extensionRequest.status = ExtStatus.rejected)) :=
  ⟨rfl, c9_extension_resolution c9Task 7 5 86400000 rfl⟩

theorem mem_commentNotificationRecipients (createdBy assignedTo commenter r : Nat)
    (adminIds : List Nat) :
    r ∈ commentNotificationRecipients createdBy assignedTo commenter adminIds ↔
      ((r = createdBy ∧ ¬ r = commenter) ∨
        (r = assignedTo ∧ ¬ r = commenter) ∨
        (r ∈ adminIds ∧ ¬ r = commenter ∧ ¬ r = createdBy ∧ ¬ r = assignedTo)) := by
  unfold commentNotificationRecipients
  constructor
  · intro h
    rcases List.mem_append.mp h with h1 | h2
    · rcases List.mem_append.mp h1 with hc | ha
      · split_ifs at hc <;> simp_all
      · split_ifs at ha <;> simp_all
    · rw [List.mem_filter] at h2
      simp_all
  · intro h
    rcases h with ⟨he, hne⟩ | ⟨he, hne⟩ | ⟨hm, h1, h2, h3⟩
    · refine List.mem_append.mpr (Or.inl (List.mem_append.mpr (Or.inl ?_)))
      subst he
      simp [hne]
    · refine List.mem_append.mpr (Or.inl (List.mem_append.mpr (Or.inr ?_)))
      subst he
      simp [hne]
    · refine List.mem_append.mpr (Or.inr ?_)
      rw [List.mem_filter]
      simp_all

/-- C10: the add-comment route never notifies the comment author: the
commenter is not among the notification recipients, and a user is a
recipient exactly when it is the task creator or assignee distinct from
the commenter, or an admin distinct from the commenter, the creator and
the assignee. -/
theorem c10_no_self_notification (createdBy assignedTo commenter : Nat)
    (adminIds : List Nat) :
    commenter ∉ commentNotificationRecipients createdBy assignedTo commenter adminIds ∧
    (∀ r, r ∈ commentNotificationRecipients createdBy assignedTo commenter adminIds ↔
      ((r = createdBy ∧ ¬ r = commenter) ∨
        (r = assignedTo ∧ ¬ r = commenter) ∨
        (r ∈ adminIds ∧ ¬ r = commenter ∧ ¬ r = createdBy ∧ ¬ r = assignedTo))) := by
  refine ⟨?_, fun r => mem_commentNotificationRecipients createdBy assignedTo commenter r adminIds⟩
  intro h
  rcases (mem_commentNotificationRecipients createdBy assignedTo commenter commenter
    adminIds).mp h with ⟨_, hne⟩ | ⟨_, hne⟩ | ⟨_, hne, _, _⟩ <;> exact hne rfl

end TaskBack
